import Mathlib

/-!
Verification of the rate-limited tracker-presence checker (`lacale_check.py`).

The development is a shallow embedding of the script's core into Lean:

* JSON values are the inductive `Json`; Python truthiness is `pyBool`.
* The HTTP layer (`http_get`) is embedded as a deterministic function of the
  sequence of responses the remote side produces, one `HttpResp` per request
  attempt.  An exception raised by `requests.get` (timeout, connection error)
  is the constructor `HttpResp.exn`; a completed request carries its status
  code and the parsed JSON body.  The value returned by the Python function,
  the number of request attempts it performs and the back-off sleeps it
  executes are collected in a `FetchTrace`.
* Python `sorted` (a stable sort by key, with `reverse=True` meaning a stable
  descending sort) is embedded with `List.insertionSort`, which Mathlib proves
  stable and which computes inside the kernel.  Python string comparison and
  `str.lower` are modelled on lists of code points (`caseFold`); lowering is
  handled for the ASCII range, which is order-faithful for the titles the
  script compares.
* Dict fields that may be absent are `Option`-valued, and Python's
  `d.get(k, default)` is `Option.getD` — except the `year` field, which the
  folder adapter can store as `"year": None` with the key present: it is
  modelled with three states (absent, Python `None`, int), and the
  `TypeError` that Python's sort raises when a `None` year meets an int year
  (or when mode `newest` negates a `None`) is the `none` result of
  `sort_items`.
* The thread pool that the dispatcher functions use is embedded by an explicit
  completion schedule `sched : List Nat`: `as_completed` yields every
  submitted future exactly once in an unspecified order, so a run of the pool
  corresponds to a `sched` that is a permutation of the indices of the
  submitted task list.
-/

/-! ### JSON values and Python truthiness -/

/-- Parsed JSON values, as returned by `response.json()`.  Numbers are
modelled as integers; their exact values never matter to the checker. -/
inductive Json where
  | jnull : Json
  | jbool : Bool → Json
  | jnum : Int → Json
  | jstr : String → Json
  | jlist : List Json → Json
  | jdict : List (String × Json) → Json

/-- Python truthiness `bool(x)` on JSON values. -/
def pyBool : Json → Bool
  | Json.jnull => false
  | Json.jbool b => b
  | Json.jnum n => n != 0
  | Json.jstr s => s != ""
  | Json.jlist xs => !xs.isEmpty
  | Json.jdict kvs => !kvs.isEmpty

/-- Python `d.get(k)` on a JSON object's field list (first binding wins). -/
def lookupField (kvs : List (String × Json)) (k : String) : Option Json :=
  (kvs.find? (fun kv => kv.1 == k)).map (fun kv => kv.2)

/-- The `results` value that `lacale_search` derives from a parsed response:
a bare list is used as is, a dict contributes its `results` field (an empty
list when the field is absent), and any other shape yields the empty list.
This mirrors lines 142-147 of `lacale_check.py`. -/
def derivedResults : Json → Json
  | Json.jlist xs => Json.jlist xs
  | Json.jdict kvs => (lookupField kvs "results").getD (Json.jlist [])
  | _ => Json.jlist []

/-! ### The rate-limit aware HTTP wrapper `http_get` -/

/-- Outcome of one `requests.get` call: either an exception
(`requests.RequestException`: timeout, connection error, ...) or a response
with a status code and a parsed JSON body. -/
inductive HttpResp where
  | status : Nat → Json → HttpResp
  | exn : HttpResp

/-- What one call of `http_get` did: how many request attempts it performed,
which back-off sleeps (in seconds) it executed, and the value it returned.
The function never raises; all failures are converted to a returned value. -/
structure FetchTrace where
  attempts : Nat
  sleeps : List Nat
  retval : Json

/-- `MAX_R` from the script: the maximal number of 429 retries. -/
def MAX_R : Nat := 3

/-- `BF` from the script: the exponential back-off factor. -/
def BF : Nat := 2

/-- The retry loop of `http_get` (lines 56-73 of `lacale_check.py`).
`resp i` is the outcome of the `i`-th request attempt; since the loop only
repeats on a 429 response, the attempt counter of the script equals the
request index.  The loop body executes at most `MAX_R + 1` times because the
counter grows on every retry and the budget check precedes the sleep, so a
fuel of `MAX_R + 1 - attempt` suffices and the zero-fuel branch is dead code.
`requests.Response.raise_for_status` raises exactly on status codes in
400..599, and the raised `HTTPError` is a `RequestException` caught by the
surrounding handler. -/
def http_get_loop (resp : Nat → HttpResp) : Nat → Nat → FetchTrace
  | _, 0 => ⟨0, [], Json.jdict []⟩
  | attempt, fuel + 1 =>
    match resp attempt with
    | HttpResp.exn => ⟨1, [], Json.jdict []⟩
    | HttpResp.status code body =>
      if code = 429 then
        if MAX_R ≤ attempt then ⟨1, [], Json.jdict []⟩
        else
          let t := http_get_loop resp (attempt + 1) fuel
          ⟨t.attempts + 1, BF ^ attempt :: t.sleeps, t.retval⟩
      else if 400 ≤ code ∧ code < 600 then ⟨1, [], Json.jdict []⟩
      else ⟨1, [], body⟩

/-- `http_get` run against the response sequence `resp`. -/
def http_get (resp : Nat → HttpResp) : FetchTrace :=
  http_get_loop resp 0 (MAX_R + 1)

/-! ### Python string helpers -/

/-- The characters removed by Python `str.strip()`. -/
def isPySpace (c : Char) : Bool :=
  c == ' ' || c == '\t' || c == '\n' || c == '\r' || c == '\x0b' || c == '\x0c'

/-- Python `str.strip()` on a character list: drop leading and trailing
whitespace. -/
def stripL (xs : List Char) : List Char :=
  ((xs.dropWhile isPySpace).reverse.dropWhile isPySpace).reverse

/-- Python `str.strip()`. -/
def pyStrip (s : String) : String :=
  String.mk (stripL s.data)

/-- Decimal digits of a positive number, most significant first; the fuel
argument (any bound on the number) makes the recursion structural, so the
function computes inside the kernel. -/
def natDigitsCore : Nat → Nat → List Char
  | 0, _ => []
  | fuel + 1, n =>
    if n = 0 then [] else natDigitsCore fuel (n / 10) ++ [Nat.digitChar (n % 10)]

/-- Decimal digits of a natural number, most significant first, as Python
`str` renders a non-negative `int`. -/
def natDigits (n : Nat) : List Char :=
  if n = 0 then ['0'] else natDigitsCore n n

/-- Python `str` of an `int`. -/
def intStr (n : Int) : String :=
  if n < 0 then String.mk ('-' :: natDigits n.natAbs) else String.mk (natDigits n.natAbs)

/-- Python `f"{n:02d}"` for a non-negative `n`: left-pad the decimal digits
with `'0'` to a minimal width of two. -/
def fmt02 (n : Nat) : List Char :=
  List.replicate (2 - (natDigits n).length) '0' ++ natDigits n

/-! ### Query building and search -/

/-- `build_query` (lines 128-134 of `lacale_check.py`): the stripped title,
then `" S%02d"` when a season is given, then `"E%02d"` when an episode is
given.  Season and episode numbers are the non-negative integers the source
adapters produce. -/
def build_query (t : String) (s e : Option Nat) : String :=
  let q := pyStrip t
  let q := match s with
    | some sv => q ++ " S" ++ String.mk (fmt02 sv)
    | none => q
  match e with
  | some ev => q ++ "E" ++ String.mk (fmt02 ev)
  | none => q

/-- The query string as §4.1 of the spec words it: the trimmed title,
followed by `" S"` and the season zero-padded to two digits when present
(natural width from 100 on), followed by `"E"` and the episode likewise. -/
def specQueryPad (n : Nat) : List Char :=
  if n < 10 then '0' :: natDigits n else natDigits n

/-- The whole query string as the spec describes it, for comparison with
`build_query`. -/
def specQuery (t : String) (s e : Option Nat) : String :=
  String.mk ((pyStrip t).data ++
    (match s with
      | some sv => ' ' :: 'S' :: specQueryPad sv
      | none => []) ++
    (match e with
      | some ev => 'E' :: specQueryPad ev
      | none => []))

/-- `True` when the two-character marker `" S"` occurs somewhere in the
character list — the "embedded ` S` token" of the spec's round-trip
property. -/
def hasMarker : List Char → Bool
  | [] => false
  | a :: l => (a == ' ' && l.head? == some 'S') || hasMarker l

/-- Modelled from the spec: the repository contains no inverse of
`build_query`; the round-trip property of spec §8 strips "the appended
season/episode suffix" from a query string.  The suffix that `build_query`
appends for a present season starts with the first `" S"` marker of the
query (the title part is marker-free by the property's hypothesis), so
stripping it is cutting the string at its first `" S"` occurrence. -/
def cutAtMarker : List Char → List Char
  | [] => []
  | a :: l => if a == ' ' && l.head? == some 'S' then [] else a :: cutAtMarker l

/-- Modelled from the spec: suffix stripping on strings, see `cutAtMarker`. -/
def stripSeasonEpisodeSuffix (q : String) : String :=
  String.mk (cutAtMarker q.data)

/-- `lacale_search` (lines 137-148 of `lacale_check.py`), with the network
abstracted by `net`: for each query string, `net` gives the sequence of
responses the tracker produces for the successive request attempts.  The
passkey only travels in the request parameters, so it does not influence the
embedded control flow. -/
def lacale_search (net : String → Nat → HttpResp) (t : String) (pk : String)
    (s e : Option Nat) : Bool :=
  pyBool (derivedResults (http_get (net (build_query t s e))).retval)

/-! ### Items, rows, and `check_one` -/

/-- One record flowing through the checker: a Python dict whose fields may be
absent.  `season_numbers` is the field that `sonarr_series` adds; records
from other sources do not carry it.  The `year` field has three states,
because the folder adapter (line 351 of `lacale_check.py`) stores
`"year": None` — with the key present — whenever the filename carries no
`(YYYY)` tag: `none` is an absent key, `some none` a key holding Python
`None`, and `some (some y)` an int year. -/
structure Item where
  title : Option String
  year : Option (Option Int)
  popularity : Option Int
  season : Option Nat
  episode : Option Nat
  season_numbers : Option (List Nat)
deriving DecidableEq

/-- The tuple `(title, year, season, episode, present)` that `check_one`
returns. -/
structure Row where
  title : String
  year : String
  season : Option Nat
  episode : Option Nat
  present : Bool
deriving DecidableEq

/-- `str(item.get("year", ""))`: an absent key yields `str("") = ""`, a key
holding Python `None` yields `str(None) = "None"`, an int its decimal
rendering. -/
def yearStr : Option (Option Int) → String
  | none => ""
  | some none => "None"
  | some (some y) => intStr y

/-- `check_one` (lines 185-195 of `lacale_check.py`). -/
def check_one (net : String → Nat → HttpResp) (item : Item) (pk : String)
    (lvl : String) (season episode : Option Nat) : Row :=
  ⟨item.title.getD "??", yearStr item.year, season, episode,
    lacale_search net (item.title.getD "??") pk season episode⟩

/-! ### Sorting (`sort_items`) -/

/-- Lowering of one code point as Python `str.lower` acts on the ASCII
range. -/
def lowerPoint (n : Nat) : Nat :=
  if 65 ≤ n ∧ n ≤ 90 then n + 32 else n

/-- The case-folded title key `x.get("title", "").lower()` used by
`sort_items`, as the list of lowered code points — Python compares strings
lexicographically by code point. -/
def caseFoldKey (x : Item) : List Nat :=
  (x.title.getD "").data.map (fun c => lowerPoint c.toNat)

/-- Lexicographic non-strict comparison of code-point lists; this is Python
`s <= t` on strings. -/
def lexNatLe : List Nat → List Nat → Bool
  | [], _ => true
  | _ :: _, [] => false
  | a :: as, b :: bs => if a < b then true else if b < a then false else lexNatLe as bs

/-- The value Python's `x.get("year", d)` retrieves: the default `d` when
the key is absent, otherwise the stored value — which is `None` (`none`) for
a folder item without a parsed year, or an int.  Only an absent key is
defaulted; a stored `None` is returned unchanged. -/
def getYear (d : Int) (x : Item) : Option Int :=
  match x.year with
  | none => some d
  | some v => v

/-- `True` when the record stores `"year": None` (key present, value
`None`).  Sort keys built from such a record are incomparable with int keys
in Python. -/
def yearIsPyNone (x : Item) : Bool :=
  match x.year with
  | some none => true
  | _ => false

/-- The popularity key: `x.get("popularity", 0)`. -/
def popVal (x : Item) : Int := x.popularity.getD 0

/-- Comparison of one year-mode sort key `(retrieved year, lowered title)`
against another.  When both retrieved years are ints Python compares them as
ints with the title as tie-break; when both are `None` the tuple comparison
finds them equal and the title decides.  A mixed pair raises `TypeError` in
Python; `sort_items` reports that exception before any mixed pair is ever
compared (the no-exception branches sort lists whose retrieved years are
uniformly ints or uniformly `None`), so the value of the two mixed arms
below (`None` below every int) is never observable through `sort_items` —
they only make the relation total so that the sortedness lemmas apply. -/
def optYearTitleLe (ka kb : Option Int) (ta tb : List Nat) : Bool :=
  match ka, kb with
  | some ya, some yb =>
    if ya < yb then true else if yb < ya then false else lexNatLe ta tb
  | none, none => lexNatLe ta tb
  | none, some _ => true
  | some _, none => false

/-- Comparison of the tuple keys `(x.get("year", 9999), lowered title)` of
mode `oldest`. -/
def oldestLeB (a b : Item) : Bool :=
  optYearTitleLe (getYear 9999 a) (getYear 9999 b) (caseFoldKey a) (caseFoldKey b)

/-- Comparison of the tuple keys `(-(x.get("year", 0)), lowered title)` of
mode `newest`: the retrieved int year is negated.  Negating a retrieved
`None` raises `TypeError`, which `sort_items` reports, so the `none` arms of
`optYearTitleLe` are never reached from mode `newest`. -/
def newestLeB (a b : Item) : Bool :=
  optYearTitleLe ((getYear 0 a).map (fun y => -y)) ((getYear 0 b).map (fun y => -y))
    (caseFoldKey a) (caseFoldKey b)

/-- Comparison by lowered title only (modes `instant` and the fallback). -/
def titleLeB (a b : Item) : Bool :=
  lexNatLe (caseFoldKey a) (caseFoldKey b)

/-- Ascending popularity comparison (mode `least-popular`). -/
def popAscLeB (a b : Item) : Bool := decide (popVal a ≤ popVal b)

/-- Descending popularity comparison: Python's `sorted(key=..., reverse=True)`
is the stable sort along this relation (ties keep input order). -/
def popDescLeB (a b : Item) : Bool := decide (popVal b ≤ popVal a)

instance decRelOfBool {α : Type} (f : α → α → Bool) :
    DecidableRel (fun a b => f a b = true) :=
  fun _ _ => inferInstanceAs (Decidable (_ = true))

/-- `sort_items` (lines 153-180 of `lacale_check.py`).  Python `sorted` is a
stable sort by the given key, which `List.insertionSort` along the
corresponding non-strict comparison implements exactly (`reverse=True` is the
stable sort along the flipped non-strict comparison).  The result is `none`
when the Python call raises `TypeError` instead of returning:

* mode `oldest` builds the tuple keys `(x.get("year", 9999), title)`; a
  folder item storing `"year": None` keeps the `None` (only an absent key is
  defaulted), and as soon as the list carries both a `None` year and a
  comparable (absent-or-int) year the sort must order such a pair and the
  tuple comparison `None < int` raises — a uniform list sorts fine;
* mode `newest` already raises while decorating: `-(x.get("year", 0))` is
  `-(None)` on the first `None`-year item;
* the remaining modes never touch the year. -/
def sort_items (lst : List Item) (mode : String) : Option (List Item) :=
  if mode = "oldest" then
    if lst.any (fun x => yearIsPyNone x) && lst.any (fun x => !yearIsPyNone x) then
      none
    else some (lst.insertionSort (fun a b => oldestLeB a b = true))
  else if mode = "newest" then
    if lst.any (fun x => yearIsPyNone x) then none
    else some (lst.insertionSort (fun a b => newestLeB a b = true))
  else if mode = "popular" then
    some (lst.insertionSort (fun a b => popDescLeB a b = true))
  else if mode = "least-popular" then
    some (lst.insertionSort (fun a b => popAscLeB a b = true))
  else if mode = "instant" then
    some (lst.insertionSort (fun a b => titleLeB a b = true))
  else some (lst.insertionSort (fun a b => titleLeB a b = true))

/-! ### The concurrent dispatchers -/

/-- Collect results in completion order: `sched` lists, in the order
`as_completed` yields them, the indices of the submitted tasks.  A real pool
run corresponds to a `sched` that is a permutation of `range tasks.length`. -/
def applyPerm {α : Type} (sched : List Nat) (xs : List α) : List α :=
  sched.filterMap (fun i => xs[i]?)

/-- `parallel_report` (lines 198-207 of `lacale_check.py`): truncate the item
list to `limit`, submit `check_one` for each kept item, collect one row per
completed future.  `workers` only sizes the pool; it does not affect which
rows are produced. -/
def parallel_report (net : String → Nat → HttpResp) (items : List Item)
    (pk : String) (limit : Nat) (workers : Nat) (lvl : String)
    (sched : List Nat) : List Row :=
  applyPerm sched ((items.take limit).map (fun it => check_one net it pk lvl none none))

/-- The `(series, season)` task list of `build_report_seasons`: one task per
season number of each series, `s.get("season_numbers", [])` giving the
seasons. -/
def seasonTasks (series : List Item) : List (Item × Nat) :=
  series.flatMap (fun s => (s.season_numbers.getD []).map (fun sn => (s, sn)))

/-- `build_report_seasons` (lines 210-227 of `lacale_check.py`). -/
def build_report_seasons (net : String → Nat → HttpResp) (series : List Item)
    (pk : String) (limit : Nat) (workers : Nat) (sched : List Nat) : List Row :=
  applyPerm sched (((seasonTasks series).take limit).map
    (fun task => check_one net task.1 pk "season" (some task.2) none))

/-- `build_report_episodes` (lines 230-244 of `lacale_check.py`). -/
def build_report_episodes (net : String → Nat → HttpResp) (episodes : List Item)
    (pk : String) (limit : Nat) (workers : Nat) (sched : List Nat) : List Row :=
  applyPerm sched ((episodes.take limit).map
    (fun ep => check_one net ep pk "episode" ep.season ep.episode))

/-! ### The fatal checks of `main` -/

/-- The year-range predicate `in_range` of `main` (lines 376-384):
`item.get("year")` is `None` both for an absent key and for a stored `None`,
and such an item never passes; otherwise both present bounds must hold. -/
def in_range (ymin ymax : Option Int) (it : Item) : Bool :=
  match it.year with
  | none => false
  | some none => false
  | some (some yr) =>
    (match ymin with
      | some m => decide (m ≤ yr)
      | none => true) &&
    (match ymax with
      | some m => decide (yr ≤ m)
      | none => true)

/-- Outcome of the empty-input checks of `main`: either the run aborts with
an exit code before any lookup is dispatched, or dispatch proceeds on the
surviving item list. -/
inductive MainOutcome where
  | fatal : Nat → MainOutcome
  | dispatch : List Item → MainOutcome
deriving DecidableEq

/-- Lines 368-388 of `lacale_check.py`: abort with exit code 1 when the
source adapter yielded nothing; apply the year filter only when a bound was
given, and abort with exit code 1 when it removed every item; otherwise
dispatch proceeds on the surviving items. -/
def main_pipeline (items : List Item) (ymin ymax : Option Int) : MainOutcome :=
  if items.isEmpty then MainOutcome.fatal 1
  else if ymin.isSome || ymax.isSome then
    let kept := items.filter (in_range ymin ymax)
    if kept.isEmpty then MainOutcome.fatal 1 else MainOutcome.dispatch kept
  else MainOutcome.dispatch items

/-- Result of a whole season-mode run: fatal abort or a produced report. -/
inductive RunResult where
  | fatal : Nat → RunResult
  | report : List Row → RunResult
deriving DecidableEq

/-- A season-mode run: the fatal checks of `main`, then
`build_report_seasons` on the surviving items (lines 410-413). -/
def season_mode_run (net : String → Nat → HttpResp) (items : List Item)
    (pk : String) (ymin ymax : Option Int) (limit : Nat)
    (sched : List Nat) : RunResult :=
  match main_pipeline items ymin ymax with
  | MainOutcome.fatal c => RunResult.fatal c
  | MainOutcome.dispatch its =>
    RunResult.report (build_report_seasons net its pk limit 5 sched)

/-! ## Claim theorems -/

/-- C1: against a remote side that answers HTTP 429 to every request,
`http_get` performs exactly `MAX_R + 1 = 4` request attempts, sleeping
`BF ^ attempt` seconds — 1s, 2s and 4s — before each of the three retries,
and after exhausting the budget returns the empty dict.  The embedding is a
total function, so the call terminates (it never blocks indefinitely) and
never raises. -/
theorem C1_retry_bound (resp : Nat → HttpResp)
    (h : ∀ i, ∃ b, resp i = HttpResp.status 429 b) :
    (http_get resp).attempts = MAX_R + 1 ∧
    (http_get resp).sleeps = [1, 2, 4] ∧
    (http_get resp).retval = Json.jdict [] := by
  obtain ⟨b0, h0⟩ := h 0
  obtain ⟨b1, h1⟩ := h 1
  obtain ⟨b2, h2⟩ := h 2
  obtain ⟨b3, h3⟩ := h 3
  have hrun : http_get resp = ⟨4, [1, 2, 4], Json.jdict []⟩ := by
    show http_get_loop resp 0 (MAX_R + 1) = _
    rw [show MAX_R + 1 = 3 + 1 from rfl]
    simp only [http_get_loop, h0, h1, h2, h3]
    norm_num [MAX_R, BF]
  rw [hrun]
  exact ⟨rfl, rfl, rfl⟩

/-- C1 witness: the constantly-429 remote side. -/
theorem C1_retry_bound_witness :
    (http_get (fun _ => HttpResp.status 429 Json.jnull)).attempts = MAX_R + 1 ∧
    (http_get (fun _ => HttpResp.status 429 Json.jnull)).sleeps = [1, 2, 4] ∧
    (http_get (fun _ => HttpResp.status 429 Json.jnull)).retval = Json.jdict [] :=
  C1_retry_bound (fun _ => HttpResp.status 429 Json.jnull) (fun _ => ⟨Json.jnull, rfl⟩)

/-- C2 counterexample: the claim quantifies over every non-2xx status, but
`raise_for_status` only raises on 400..599.  A response with the redirect
status 303 and a JSON body (requests only follows a redirect when it can;
e.g. a redirect-range response without a usable Location reaches this code)
is returned as a parsed body, not converted to an empty result. -/
theorem C2_counterexample :
    ¬ (∀ (resp : Nat → HttpResp) (code : Nat) (body : Json),
        resp 0 = HttpResp.status code body → ¬ (200 ≤ code ∧ code < 300) →
        code ≠ 429 →
        (http_get resp).retval = Json.jdict [] ∧
        (http_get resp).attempts = 1 ∧ (http_get resp).sleeps = []) := by
  intro h
  have hc := h (fun _ => HttpResp.status 303 (Json.jlist [Json.jnull])) 303
    (Json.jlist [Json.jnull]) rfl (by decide) (by decide)
  have hr : (http_get (fun _ => HttpResp.status 303 (Json.jlist [Json.jnull]))).retval =
      Json.jlist [Json.jnull] := rfl
  rw [hr] at hc
  exact Json.noConfusion hc.1

/-- C2 (amended): for every transport failure (an exception from
`requests.get`: timeout, connection error) and for every response status in
400..599 other than 429, `http_get` returns the empty dict immediately —
one single request attempt, no sleep, nothing raised to the caller.
Statuses outside 400..599 are not raised on by `raise_for_status`, so a
redirect-range response is returned as its parsed body instead (see the
counterexample). -/
theorem C2_transport_failure_no_retry (resp : Nat → HttpResp) :
    (resp 0 = HttpResp.exn →
      (http_get resp).retval = Json.jdict [] ∧
      (http_get resp).attempts = 1 ∧ (http_get resp).sleeps = []) ∧
    (∀ code body, resp 0 = HttpResp.status code body →
      400 ≤ code → code < 600 → code ≠ 429 →
      (http_get resp).retval = Json.jdict [] ∧
      (http_get resp).attempts = 1 ∧ (http_get resp).sleeps = []) := by
  constructor
  · intro h0
    have hrun : http_get resp = ⟨1, [], Json.jdict []⟩ := by
      show http_get_loop resp 0 (MAX_R + 1) = _
      rw [show MAX_R + 1 = 3 + 1 from rfl]
      simp only [http_get_loop, h0]
    rw [hrun]
    exact ⟨rfl, rfl, rfl⟩
  · intro code body h0 h400 h600 hne
    have hrun : http_get resp = ⟨1, [], Json.jdict []⟩ := by
      show http_get_loop resp 0 (MAX_R + 1) = _
      rw [show MAX_R + 1 = 3 + 1 from rfl]
      simp only [http_get_loop, h0]
      rw [if_neg hne, if_pos ⟨h400, h600⟩]
    rw [hrun]
    exact ⟨rfl, rfl, rfl⟩

/-- C2 witness: a timeout/connection failure and a plain 404 both yield one
attempt, no sleep and an empty result. -/
theorem C2_transport_failure_no_retry_witness :
    ((http_get (fun _ => HttpResp.exn)).retval = Json.jdict [] ∧
      (http_get (fun _ => HttpResp.exn)).attempts = 1 ∧
      (http_get (fun _ => HttpResp.exn)).sleeps = []) ∧
    ((http_get (fun _ => HttpResp.status 404 Json.jnull)).retval = Json.jdict [] ∧
      (http_get (fun _ => HttpResp.status 404 Json.jnull)).attempts = 1 ∧
      (http_get (fun _ => HttpResp.status 404 Json.jnull)).sleeps = []) :=
  ⟨(C2_transport_failure_no_retry (fun _ => HttpResp.exn)).1 rfl,
    (C2_transport_failure_no_retry (fun _ => HttpResp.status 404 Json.jnull)).2
      404 Json.jnull rfl (by decide) (by decide) (by decide)⟩

/-- C3: `lacale_search` reports presence exactly when the derived candidate
list is non-empty.  The hypothesis fixes the derived `results` value to be a
JSON array `xs` — which covers every response the wire contract describes: a
bare array (taken as is), an object whose `results` field is an array or
absent (absent contributing the empty array), and any other JSON shape
(yielding the empty array).  An object carrying a non-array `results` value
has no candidate-list reading; the code then applies Python truthiness to
that value. -/
theorem C3_presence_iff_nonempty (net : String → Nat → HttpResp)
    (t pk : String) (s e : Option Nat) (xs : List Json)
    (h : derivedResults (http_get (net (build_query t s e))).retval = Json.jlist xs) :
    (lacale_search net t pk s e = true ↔ xs ≠ []) := by
  unfold lacale_search
  rw [h]
  cases xs with
  | nil => simp [pyBool]
  | cons a l => simp [pyBool]

/-- C3 witness: a 200 response carrying an object with a one-element
`results` array is reported present. -/
theorem C3_presence_iff_nonempty_witness :
    derivedResults (http_get ((fun _ _ => HttpResp.status 200
        (Json.jdict [("results", Json.jlist [Json.jnull])]) :
      String → Nat → HttpResp) (build_query "x" none none))).retval =
      Json.jlist [Json.jnull] ∧
    (lacale_search (fun _ _ => HttpResp.status 200
        (Json.jdict [("results", Json.jlist [Json.jnull])])) "x" "pk" none none = true ↔
      [Json.jnull] ≠ []) :=
  ⟨rfl, C3_presence_iff_nonempty _ "x" "pk" none none [Json.jnull] rfl⟩

/-! ### Helper lemmas: decimal rendering -/

theorem natDigitsCore_zero_arg : ∀ fuel, natDigitsCore fuel 0 = [] := by
  intro fuel
  cases fuel with
  | zero => rfl
  | succ f => simp [natDigitsCore]

theorem natDigitsCore_ne_nil : ∀ fuel n, n ≠ 0 → n ≤ fuel → natDigitsCore fuel n ≠ [] := by
  intro fuel n hn hle
  cases fuel with
  | zero => omega
  | succ f =>
    simp only [natDigitsCore, if_neg hn]
    simp

theorem natDigits_of_lt_ten (n : Nat) (h : n < 10) : (natDigits n).length = 1 := by
  by_cases h0 : n = 0
  · subst h0; rfl
  · have hsucc : ∃ m, n = m + 1 := ⟨n - 1, by omega⟩
    obtain ⟨m, rfl⟩ := hsucc
    have hdiv : (m + 1) / 10 = 0 := Nat.div_eq_of_lt h
    simp [natDigits, natDigitsCore, hdiv, natDigitsCore_zero_arg]

theorem natDigits_of_ten_le (n : Nat) (h : 10 ≤ n) : 2 ≤ (natDigits n).length := by
  have h0 : n ≠ 0 := by omega
  obtain ⟨m, rfl⟩ : ∃ m, n = m + 1 := ⟨n - 1, by omega⟩
  have hdiv0 : (m + 1) / 10 ≠ 0 := by
    have : 1 ≤ (m + 1) / 10 := Nat.le_div_iff_mul_le (by norm_num) |>.mpr (by omega)
    omega
  have hdivle : (m + 1) / 10 ≤ m := by
    have := Nat.div_lt_self (Nat.succ_pos m) (show 1 < 10 by norm_num)
    omega
  have hne := natDigitsCore_ne_nil m ((m + 1) / 10) hdiv0 hdivle
  have h1 : 0 < (natDigitsCore m ((m + 1) / 10)).length := List.length_pos.mpr hne
  have hun : natDigits (m + 1) =
      natDigitsCore m ((m + 1) / 10) ++ [Nat.digitChar ((m + 1) % 10)] := by
    simp [natDigits, natDigitsCore]
  rw [hun, List.length_append, List.length_singleton]
  omega

theorem fmt02_eq_specQueryPad (n : Nat) : fmt02 n = specQueryPad n := by
  by_cases h : n < 10
  · have hl := natDigits_of_lt_ten n h
    simp [fmt02, specQueryPad, hl, h, List.replicate]
  · have hl := natDigits_of_ten_le n (by omega)
    have : 2 - (natDigits n).length = 0 := by omega
    simp [fmt02, specQueryPad, this, h]

/-- C7: `build_query` returns exactly the string the spec describes — the
trimmed title, then `" S"` plus the season zero-padded to two digits when
present, then `"E"` plus the episode likewise, with numbers from 100 on
rendered at their natural width.  The embedding is a pure function, so the
construction has no side effects. -/
theorem C7_build_query_shape (t : String) (s e : Option Nat) :
    build_query t s e = specQuery t s e := by
  apply String.ext
  cases s with
  | none =>
    cases e with
    | none => simp [build_query, specQuery, pyStrip]
    | some ev =>
      simp [build_query, specQuery, pyStrip, String.data_append,
        fmt02_eq_specQueryPad ev]
  | some sv =>
    cases e with
    | none =>
      simp [build_query, specQuery, pyStrip, String.data_append,
        fmt02_eq_specQueryPad sv]
    | some ev =>
      simp [build_query, specQuery, pyStrip, String.data_append,
        fmt02_eq_specQueryPad sv, fmt02_eq_specQueryPad ev]

/-! ### Helper lemmas: the `" S"` marker -/

theorem hasMarker_append (u v : List Char) (h : hasMarker (u ++ v) = false) :
    hasMarker u = false ∧ hasMarker v = false := by
  induction u with
  | nil => exact ⟨rfl, h⟩
  | cons c u ih =>
    rw [List.cons_append, hasMarker] at h
    rw [Bool.or_eq_false_iff] at h
    obtain ⟨hcond, htail⟩ := h
    obtain ⟨hu, hv⟩ := ih htail
    refine ⟨?_, hv⟩
    rw [hasMarker, Bool.or_eq_false_iff]
    refine ⟨?_, hu⟩
    cases u with
    | nil => simp
    | cons d u2 => simpa using hcond

theorem stripL_decomp (xs : List Char) : ∃ u w, xs = u ++ stripL xs ++ w := by
  refine ⟨xs.takeWhile isPySpace,
    ((xs.dropWhile isPySpace).reverse.takeWhile isPySpace).reverse, ?_⟩
  conv_lhs => rw [← List.takeWhile_append_dropWhile isPySpace xs]
  rw [List.append_assoc]
  congr 1
  conv_lhs => rw [← List.reverse_reverse (xs.dropWhile isPySpace)]
  conv_lhs =>
    rw [← List.takeWhile_append_dropWhile isPySpace (xs.dropWhile isPySpace).reverse]
  rw [List.reverse_append]
  rfl

theorem hasMarker_stripL (xs : List Char) (h : hasMarker xs = false) :
    hasMarker (stripL xs) = false := by
  obtain ⟨u, w, hx⟩ := stripL_decomp xs
  rw [hx] at h
  exact (hasMarker_append _ _ (hasMarker_append _ _ h).1).2

theorem cutAtMarker_append_marker (A R : List Char) (h : hasMarker A = false) :
    cutAtMarker (A ++ ' ' :: 'S' :: R) = A := by
  induction A with
  | nil => rfl
  | cons c A ih =>
    rw [hasMarker, Bool.or_eq_false_iff] at h
    obtain ⟨hcond, htail⟩ := h
    rw [List.cons_append, cutAtMarker]
    cases A with
    | nil =>
      rw [if_neg (by simp)]
      rw [List.nil_append] at ih ⊢
      rw [ih htail]
    | cons d A2 =>
      rw [if_neg (by simpa using hcond)]
      rw [ih htail]

/-- C8: stripping the appended season/episode suffix from
`build_query t s e` — cutting the query at its first `" S"` marker —
recovers exactly the trimmed title, for every title with no embedded `" S"`
token, every season number and every (possibly absent) episode number. -/
theorem C8_round_trip (t : String) (sv : Nat) (e : Option Nat)
    (h : hasMarker t.data = false) :
    stripSeasonEpisodeSuffix (build_query t (some sv) e) = pyStrip t := by
  have hs : hasMarker (stripL t.data) = false := hasMarker_stripL t.data h
  apply String.ext
  show cutAtMarker (build_query t (some sv) e).data = stripL t.data
  cases e with
  | none =>
    have hq : (build_query t (some sv) none).data =
        stripL t.data ++ ' ' :: 'S' :: fmt02 sv := by
      simp [build_query, pyStrip, String.data_append]
    rw [hq]
    exact cutAtMarker_append_marker _ _ hs
  | some ev =>
    have hq : (build_query t (some sv) (some ev)).data =
        stripL t.data ++ ' ' :: 'S' :: (fmt02 sv ++ 'E' :: fmt02 ev) := by
      simp [build_query, pyStrip, String.data_append]
    rw [hq]
    exact cutAtMarker_append_marker _ _ hs

/-- C8 witness: `"Foo" → "Foo S02E13" → "Foo"`. -/
theorem C8_round_trip_witness :
    hasMarker ("Foo" : String).data = false ∧
    stripSeasonEpisodeSuffix (build_query "Foo" (some 2) (some 13)) = pyStrip "Foo" :=
  ⟨by decide, C8_round_trip "Foo" 2 (some 13) (by decide)⟩

/-! ### Helper lemmas: the completion schedule -/

theorem filterMap_getElem_range {α : Type} (xs : List α) :
    (List.range xs.length).filterMap (fun i => xs[i]?) = xs := by
  induction xs with
  | nil => rfl
  | cons a t ih =>
    simp only [List.length_cons, List.range_succ_eq_map, List.filterMap_cons,
      List.getElem?_cons_zero, List.filterMap_map, Function.comp_def,
      List.getElem?_cons_succ]
    exact congrArg (a :: ·) ih

theorem applyPerm_perm {α : Type} (xs : List α) (sched : List Nat)
    (h : sched.Perm (List.range xs.length)) : (applyPerm sched xs).Perm xs := by
  have h1 : (applyPerm sched xs).Perm
      ((List.range xs.length).filterMap (fun i => xs[i]?)) :=
    h.filterMap (fun i => xs[i]?)
  rw [filterMap_getElem_range] at h1
  exact h1

/-- C4: each dispatcher truncates its task list to the first `limit` entries
before submitting anything, and collecting the futures in any completion
order yields exactly one row per dispatched task: the output is a
permutation of `check_one` mapped over the truncated task list, and its
length is `min limit (number of tasks)` — for full mode the items, for
season mode the expanded `(series, season)` pairs, for episode mode the
episode records. -/
theorem C4_dispatch_truncation (net : String → Nat → HttpResp) (pk lvl : String)
    (limit workers : Nat) (items series episodes : List Item)
    (s1 s2 s3 : List Nat)
    (h1 : s1.Perm (List.range (items.take limit).length))
    (h2 : s2.Perm (List.range ((seasonTasks series).take limit).length))
    (h3 : s3.Perm (List.range (episodes.take limit).length)) :
    ((parallel_report net items pk limit workers lvl s1).Perm
        ((items.take limit).map (fun it => check_one net it pk lvl none none)) ∧
      (parallel_report net items pk limit workers lvl s1).length =
        min limit items.length) ∧
    ((build_report_seasons net series pk limit workers s2).Perm
        (((seasonTasks series).take limit).map
          (fun task => check_one net task.1 pk "season" (some task.2) none)) ∧
      (build_report_seasons net series pk limit workers s2).length =
        min limit (seasonTasks series).length) ∧
    ((build_report_episodes net episodes pk limit workers s3).Perm
        ((episodes.take limit).map
          (fun ep => check_one net ep pk "episode" ep.season ep.episode)) ∧
      (build_report_episodes net episodes pk limit workers s3).length =
        min limit episodes.length) := by
  have g1 := applyPerm_perm
    ((items.take limit).map (fun it => check_one net it pk lvl none none)) s1
    (by simpa using h1)
  have g2 := applyPerm_perm
    (((seasonTasks series).take limit).map
      (fun task => check_one net task.1 pk "season" (some task.2) none)) s2
    (by simpa using h2)
  have g3 := applyPerm_perm
    ((episodes.take limit).map
      (fun ep => check_one net ep pk "episode" ep.season ep.episode)) s3
    (by simpa using h3)
  refine ⟨⟨g1, ?_⟩, ⟨g2, ?_⟩, ⟨g3, ?_⟩⟩
  · unfold parallel_report
    rw [g1.length_eq]
    simp [List.length_take]
  · unfold build_report_seasons
    rw [g2.length_eq]
    simp [List.length_take]
  · unfold build_report_episodes
    rw [g3.length_eq]
    simp [List.length_take]

/-- C4 witness: two items, limit 1, with the single completed future
collected; the report has exactly `min 1 2 = 1` row. -/
theorem C4_dispatch_truncation_witness :
    ([0].Perm (List.range (([⟨some "a", none, none, none, none, none⟩,
        ⟨some "b", none, none, none, none, none⟩] : List Item).take 1).length) ∧
      ([0].Perm (List.range ((seasonTasks [⟨some "a", none, none, none, none,
        some [3]⟩]).take 1).length)) ∧
      ([] : List Nat).Perm (List.range (([] : List Item).take 1).length)) ∧
    (parallel_report (fun _ _ => HttpResp.exn) [⟨some "a", none, none, none, none, none⟩,
        ⟨some "b", none, none, none, none, none⟩] "pk" 1 5 "full" [0]).length =
      min 1 2 := by
  refine ⟨⟨by decide, by decide, by decide⟩, ?_⟩
  exact (C4_dispatch_truncation (fun _ _ => HttpResp.exn) "pk" "full" 1 5
    [⟨some "a", none, none, none, none, none⟩, ⟨some "b", none, none, none, none, none⟩]
    [⟨some "a", none, none, none, none, some [3]⟩] []
    [0] [0] [] (by decide) (by decide) (by decide)).1.2

/-! ### Helper lemmas: the sort relations -/

theorem lexNatLe_total : ∀ a b, lexNatLe a b = true ∨ lexNatLe b a = true
  | [], _ => Or.inl rfl
  | _ :: _, [] => Or.inr rfl
  | a :: as, b :: bs => by
    by_cases hab : a < b
    · left; simp [lexNatLe, hab]
    · by_cases hba : b < a
      · right; simp [lexNatLe, hba]
      · rcases lexNatLe_total as bs with h | h
        · left; simp [lexNatLe, hab, hba, h]
        · right; simp [lexNatLe, hba, hab, h]

theorem lexNatLe_trans : ∀ a b c, lexNatLe a b = true → lexNatLe b c = true →
    lexNatLe a c = true
  | [], _, _, _, _ => rfl
  | _ :: _, [], _, h, _ => by simp [lexNatLe] at h
  | _ :: _, _ :: _, [], _, h => by simp [lexNatLe] at h
  | a :: as, b :: bs, c :: cs, h₁, h₂ => by
    simp only [lexNatLe] at h₁ h₂ ⊢
    split_ifs with h₃ h₄
    · rfl
    · exfalso
      split_ifs at h₁ h₂ with p q u v
      all_goals omega
    · split_ifs at h₁ h₂ with p q u v
      all_goals try omega
      exact lexNatLe_trans as bs cs h₁ h₂

theorem lexIf_total (x y : Int) (p q : Bool) (hpq : p = true ∨ q = true) :
    (if x < y then true else if y < x then false else p) = true ∨
    (if y < x then true else if x < y then false else q) = true := by
  rcases lt_trichotomy x y with h | h | h
  · left; rw [if_pos h]
  · rw [if_neg (by omega), if_neg (by omega), if_neg (by omega), if_neg (by omega)]
    exact hpq
  · right; rw [if_pos h]

theorem lexIf_trans (x y z : Int) (p q r : Bool)
    (hpqr : p = true → q = true → r = true) :
    (if x < y then true else if y < x then false else p) = true →
    (if y < z then true else if z < y then false else q) = true →
    (if x < z then true else if z < x then false else r) = true := by
  intro h1 h2
  have hxy : x ≤ y := by
    split_ifs at h1 with a1 a2 <;> omega
  have hyz : y ≤ z := by
    split_ifs at h2 with a1 a2 <;> omega
  by_cases a1 : x < y
  · rw [if_pos (by omega)]
  · by_cases a2 : y < z
    · rw [if_pos (by omega)]
    · have hp : p = true := by
        rw [if_neg (by omega), if_neg (by omega)] at h1
        exact h1
      have hq : q = true := by
        rw [if_neg (by omega), if_neg (by omega)] at h2
        exact h2
      rw [if_neg (by omega), if_neg (by omega)]
      exact hpqr hp hq

theorem lexIf_key_le (x y : Int) (p : Bool)
    (h : (if x < y then true else if y < x then false else p) = true) : x ≤ y := by
  split_ifs at h with a1 a2 <;> omega

theorem lexIf_tie (x y : Int) (p : Bool)
    (h : (if x < y then true else if y < x then false else p) = true)
    (hxy : x = y) : p = true := by
  rw [if_neg (by omega), if_neg (by omega)] at h
  exact h

theorem optYearTitleLe_total : ∀ (ka kb : Option Int) (ta tb : List Nat),
    optYearTitleLe ka kb ta tb = true ∨ optYearTitleLe kb ka tb ta = true
  | none, none, ta, tb => lexNatLe_total ta tb
  | none, some _, _, _ => Or.inl rfl
  | some _, none, _, _ => Or.inr rfl
  | some ya, some yb, ta, tb => lexIf_total ya yb _ _ (lexNatLe_total ta tb)

theorem optYearTitleLe_trans : ∀ (ka kb kc : Option Int) (ta tb tc : List Nat),
    optYearTitleLe ka kb ta tb = true → optYearTitleLe kb kc tb tc = true →
    optYearTitleLe ka kc ta tc = true
  | none, none, none, ta, tb, tc, h1, h2 => lexNatLe_trans ta tb tc h1 h2
  | none, none, some _, _, _, _, _, _ => rfl
  | none, some _, some _, _, _, _, _, _ => rfl
  | none, some _, none, _, _, _, _, h2 => by simp [optYearTitleLe] at h2
  | some _, none, _, _, _, _, h1, _ => by simp [optYearTitleLe] at h1
  | some _, some _, none, _, _, _, _, h2 => by simp [optYearTitleLe] at h2
  | some ya, some yb, some yc, ta, tb, tc, h1, h2 =>
    lexIf_trans ya yb yc _ _ _ (lexNatLe_trans ta tb tc) h1 h2

theorem optYearTitleLe_tie : ∀ (ka kb : Option Int) (ta tb : List Nat),
    optYearTitleLe ka kb ta tb = true → ka = kb → lexNatLe ta tb = true
  | none, none, _, _, h, _ => h
  | some ya, some yb, ta, tb, h, heq =>
    lexIf_tie ya yb _ h (Option.some.inj heq)
  | none, some _, _, _, _, heq => Option.noConfusion heq
  | some _, none, _, _, _, heq => Option.noConfusion heq

theorem optYearTitleLe_key_le : ∀ (ka kb : Option Int) (ta tb : List Nat)
    (ya yb : Int), optYearTitleLe ka kb ta tb = true → ka = some ya →
    kb = some yb → ya ≤ yb
  | some xa, some xb, ta, tb, ya, yb, h, ha, hb => by
    have hxa : xa = ya := Option.some.inj ha
    have hxb : xb = yb := Option.some.inj hb
    rw [← hxa, ← hxb]
    exact lexIf_key_le xa xb _ h
  | none, _, _, _, _, _, _, ha, _ => Option.noConfusion ha
  | some _, none, _, _, _, _, _, _, hb => Option.noConfusion hb

theorem oldestLeB_total (a b : Item) : oldestLeB a b = true ∨ oldestLeB b a = true :=
  optYearTitleLe_total (getYear 9999 a) (getYear 9999 b)
    (caseFoldKey a) (caseFoldKey b)

theorem oldestLeB_trans (a b c : Item) (h1 : oldestLeB a b = true)
    (h2 : oldestLeB b c = true) : oldestLeB a c = true :=
  optYearTitleLe_trans (getYear 9999 a) (getYear 9999 b) (getYear 9999 c)
    (caseFoldKey a) (caseFoldKey b) (caseFoldKey c) h1 h2

theorem newestLeB_total (a b : Item) : newestLeB a b = true ∨ newestLeB b a = true :=
  optYearTitleLe_total ((getYear 0 a).map (fun y => -y))
    ((getYear 0 b).map (fun y => -y)) (caseFoldKey a) (caseFoldKey b)

theorem newestLeB_trans (a b c : Item) (h1 : newestLeB a b = true)
    (h2 : newestLeB b c = true) : newestLeB a c = true :=
  optYearTitleLe_trans ((getYear 0 a).map (fun y => -y))
    ((getYear 0 b).map (fun y => -y)) ((getYear 0 c).map (fun y => -y))
    (caseFoldKey a) (caseFoldKey b) (caseFoldKey c) h1 h2

theorem titleLeB_total (a b : Item) : titleLeB a b = true ∨ titleLeB b a = true :=
  lexNatLe_total (caseFoldKey a) (caseFoldKey b)

theorem titleLeB_trans (a b c : Item) (h1 : titleLeB a b = true)
    (h2 : titleLeB b c = true) : titleLeB a c = true :=
  lexNatLe_trans (caseFoldKey a) (caseFoldKey b) (caseFoldKey c) h1 h2

theorem popAscLeB_total (a b : Item) : popAscLeB a b = true ∨ popAscLeB b a = true := by
  unfold popAscLeB
  rcases Int.le_total (popVal a) (popVal b) with h | h
  · left; simpa using h
  · right; simpa using h

theorem popAscLeB_trans (a b c : Item) (h1 : popAscLeB a b = true)
    (h2 : popAscLeB b c = true) : popAscLeB a c = true := by
  unfold popAscLeB at h1 h2 ⊢
  simp only [decide_eq_true_eq] at h1 h2 ⊢
  omega

theorem popDescLeB_total (a b : Item) : popDescLeB a b = true ∨ popDescLeB b a = true := by
  unfold popDescLeB
  rcases Int.le_total (popVal b) (popVal a) with h | h
  · left; simpa using h
  · right; simpa using h

theorem popDescLeB_trans (a b c : Item) (h1 : popDescLeB a b = true)
    (h2 : popDescLeB b c = true) : popDescLeB a c = true := by
  unfold popDescLeB at h1 h2 ⊢
  simp only [decide_eq_true_eq] at h1 h2 ⊢
  omega

/-! ### Helper lemmas: stability of the popularity sorts -/

theorem filter_orderedInsert_eq {α : Type} (r : α → α → Prop) [DecidableRel r]
    (k : α → Int) (hr : ∀ x y, ¬ r x y → k x ≠ k y) (a : α) (l : List α) :
    (List.orderedInsert r a l).filter (fun x => k x == k a) =
      a :: l.filter (fun x => k x == k a) := by
  induction l with
  | nil => simp [List.orderedInsert]
  | cons b l ih =>
    by_cases hab : r a b
    · rw [List.orderedInsert, if_pos hab, List.filter_cons, if_pos (by simp)]
    · have hne : k a ≠ k b := hr a b hab
      rw [List.orderedInsert, if_neg hab, List.filter_cons,
        if_neg (by simp [Ne.symm hne]), ih, List.filter_cons,
        if_neg (by simp [Ne.symm hne])]

theorem filter_orderedInsert_ne {α : Type} (r : α → α → Prop) [DecidableRel r]
    (k : α → Int) (c : Int) (a : α) (hne : k a ≠ c) (l : List α) :
    (List.orderedInsert r a l).filter (fun x => k x == c) =
      l.filter (fun x => k x == c) := by
  induction l with
  | nil => simp [List.orderedInsert, hne]
  | cons b l ih =>
    by_cases hab : r a b
    · rw [List.orderedInsert, if_pos hab, List.filter_cons, if_neg (by simp [hne])]
    · rw [List.orderedInsert, if_neg hab, List.filter_cons, ih]
      simp [List.filter_cons]

theorem insertionSort_filter_key {α : Type} (r : α → α → Prop) [DecidableRel r]
    (k : α → Int) (hr : ∀ x y, ¬ r x y → k x ≠ k y) (l : List α) (c : Int) :
    (List.insertionSort r l).filter (fun x => k x == c) =
      l.filter (fun x => k x == c) := by
  induction l with
  | nil => rfl
  | cons a l ih =>
    rw [List.insertionSort]
    by_cases hc : k a = c
    · subst hc
      rw [filter_orderedInsert_eq r k hr a _, ih, List.filter_cons, if_pos (by simp)]
    · rw [filter_orderedInsert_ne r k c a hc _, ih, List.filter_cons,
        if_neg (by simp [hc])]

theorem pairwise_of_sorted_at {α : Type} {r : α → α → Prop} {l : List α}
    (h : List.Pairwise r l) (i j : Nat) (a b : α) (hij : i < j)
    (ha : l[i]? = some a) (hb : l[j]? = some b) : r a b := by
  obtain ⟨hi, hai⟩ := List.getElem?_eq_some.mp ha
  obtain ⟨hj, hbj⟩ := List.getElem?_eq_some.mp hb
  have hp := List.pairwise_iff_getElem.mp h i j hi hj hij
  rw [hai, hbj] at hp
  exact hp

/-- C5 counterexample: in mode `popular` the sort key is the popularity
alone — there is no title tie-break.  Two items with equal popularity stay
in input order: with titles `"b"`, `"a"` (in that order) the output keeps
`"b"` first although its case-folded title is strictly greater, so equal
primary keys are not ordered by case-folded title. -/
theorem C5_sort_counterexample :
    popVal ⟨some "b", none, some 1, none, none, none⟩ =
      popVal ⟨some "a", none, some 1, none, none, none⟩ ∧
    sort_items [⟨some "b", none, some 1, none, none, none⟩,
        ⟨some "a", none, some 1, none, none, none⟩] "popular" =
      some [⟨some "b", none, some 1, none, none, none⟩,
        ⟨some "a", none, some 1, none, none, none⟩] ∧
    lexNatLe (caseFoldKey ⟨some "b", none, some 1, none, none, none⟩)
      (caseFoldKey ⟨some "a", none, some 1, none, none, none⟩) = false := by
  decide

/-- C5 (amended): whenever `sort_items` returns (rather than raising
`TypeError`), it is a deterministic stable sort along a total preorder and
the output is a permutation of the input.  In the year modes (`oldest`,
`newest`) items with equal retrieved year key are ordered solely by
case-folded title; in the alphabetical modes (`instant` and the fallback)
the case-folded title is itself the key; in the popularity modes (`popular`,
`least-popular`) there is no title tie-break — Python's stable sort leaves
items of equal popularity in input order instead.  Mode `oldest` raises
`TypeError` exactly when the list holds both an item storing `"year": None`
and an item with a comparable (absent-or-int) year; mode `newest` raises
exactly when some item stores `"year": None`; the other modes never
raise. -/
theorem C5_sort_deterministic_total_order (lst : List Item) :
    (∀ mode : String, sort_items lst mode = sort_items lst mode) ∧
    ((sort_items lst "oldest" = none ↔
        (lst.any (fun x => yearIsPyNone x) = true ∧
          lst.any (fun x => !yearIsPyNone x) = true)) ∧
      (∀ out : List Item, sort_items lst "oldest" = some out →
        out.Perm lst ∧
        List.Sorted (fun a b => oldestLeB a b = true) out ∧
        (∀ (i j : Nat) (a b : Item), i < j → out[i]? = some a →
          out[j]? = some b → getYear 9999 a = getYear 9999 b →
          lexNatLe (caseFoldKey a) (caseFoldKey b) = true))) ∧
    ((sort_items lst "newest" = none ↔
        lst.any (fun x => yearIsPyNone x) = true) ∧
      (∀ out : List Item, sort_items lst "newest" = some out →
        out.Perm lst ∧
        List.Sorted (fun a b => newestLeB a b = true) out ∧
        (∀ (i j : Nat) (a b : Item), i < j → out[i]? = some a →
          out[j]? = some b → getYear 0 a = getYear 0 b →
          lexNatLe (caseFoldKey a) (caseFoldKey b) = true))) ∧
    ((sort_items lst "instant").isSome = true ∧
      (∀ out : List Item, sort_items lst "instant" = some out →
        out.Perm lst ∧ List.Sorted (fun a b => titleLeB a b = true) out)) ∧
    ((sort_items lst "popular").isSome = true ∧
      (∀ out : List Item, sort_items lst "popular" = some out →
        out.Perm lst ∧ List.Sorted (fun a b => popDescLeB a b = true) out ∧
        (∀ c : Int, out.filter (fun x => popVal x == c) =
          lst.filter (fun x => popVal x == c)))) ∧
    ((sort_items lst "least-popular").isSome = true ∧
      (∀ out : List Item, sort_items lst "least-popular" = some out →
        out.Perm lst ∧ List.Sorted (fun a b => popAscLeB a b = true) out ∧
        (∀ c : Int, out.filter (fun x => popVal x == c) =
          lst.filter (fun x => popVal x == c)))) := by
  haveI i1 : IsTotal Item (fun a b => oldestLeB a b = true) := ⟨oldestLeB_total⟩
  haveI i2 : IsTrans Item (fun a b => oldestLeB a b = true) :=
    ⟨fun a b c => oldestLeB_trans a b c⟩
  haveI i3 : IsTotal Item (fun a b => newestLeB a b = true) := ⟨newestLeB_total⟩
  haveI i4 : IsTrans Item (fun a b => newestLeB a b = true) :=
    ⟨fun a b c => newestLeB_trans a b c⟩
  haveI i5 : IsTotal Item (fun a b => titleLeB a b = true) := ⟨titleLeB_total⟩
  haveI i6 : IsTrans Item (fun a b => titleLeB a b = true) :=
    ⟨fun a b c => titleLeB_trans a b c⟩
  haveI i7 : IsTotal Item (fun a b => popDescLeB a b = true) := ⟨popDescLeB_total⟩
  haveI i8 : IsTrans Item (fun a b => popDescLeB a b = true) :=
    ⟨fun a b c => popDescLeB_trans a b c⟩
  haveI i9 : IsTotal Item (fun a b => popAscLeB a b = true) := ⟨popAscLeB_total⟩
  haveI i10 : IsTrans Item (fun a b => popAscLeB a b = true) :=
    ⟨fun a b c => popAscLeB_trans a b c⟩
  have e3 : sort_items lst "instant" =
      some (lst.insertionSort (fun a b => titleLeB a b = true)) := rfl
  have e4 : sort_items lst "popular" =
      some (lst.insertionSort (fun a b => popDescLeB a b = true)) := rfl
  have e5 : sort_items lst "least-popular" =
      some (lst.insertionSort (fun a b => popAscLeB a b = true)) := rfl
  refine ⟨fun _ => rfl, ⟨?_, ?_⟩, ⟨?_, ?_⟩, ⟨?_, ?_⟩, ⟨?_, ?_⟩, ⟨?_, ?_⟩⟩
  · by_cases hc : (lst.any (fun x => yearIsPyNone x) &&
        lst.any (fun x => !yearIsPyNone x)) = true
    · have e : sort_items lst "oldest" = none := by
        unfold sort_items
        rw [if_pos rfl, if_pos hc]
      rw [e]
      simp [(Bool.and_eq_true _ _).mp hc]
    · have e : sort_items lst "oldest" =
          some (lst.insertionSort (fun a b => oldestLeB a b = true)) := by
        unfold sort_items
        rw [if_pos rfl, if_neg hc]
      rw [e]
      constructor
      · intro h
        exact Option.noConfusion h
      · intro h
        exact absurd ((Bool.and_eq_true _ _).mpr h) hc
  · intro out hout
    by_cases hc : (lst.any (fun x => yearIsPyNone x) &&
        lst.any (fun x => !yearIsPyNone x)) = true
    · have e : sort_items lst "oldest" = none := by
        unfold sort_items
        rw [if_pos rfl, if_pos hc]
      rw [e] at hout
      exact Option.noConfusion hout
    · have e : sort_items lst "oldest" =
          some (lst.insertionSort (fun a b => oldestLeB a b = true)) := by
        unfold sort_items
        rw [if_pos rfl, if_neg hc]
      rw [e] at hout
      obtain rfl := (Option.some.inj hout).symm
      refine ⟨List.perm_insertionSort _ lst,
        List.sorted_insertionSort (fun a b => oldestLeB a b = true) lst, ?_⟩
      intro i j a b hij ha hb heq
      have hr := pairwise_of_sorted_at
        (List.sorted_insertionSort (fun a b => oldestLeB a b = true) lst)
        i j a b hij ha hb
      exact optYearTitleLe_tie (getYear 9999 a) (getYear 9999 b)
        (caseFoldKey a) (caseFoldKey b) hr heq
  · by_cases hc : lst.any (fun x => yearIsPyNone x) = true
    · have e : sort_items lst "newest" = none := by
        unfold sort_items
        rw [if_neg (by decide), if_pos rfl, if_pos hc]
      rw [e]
      simp [hc]
    · have e : sort_items lst "newest" =
          some (lst.insertionSort (fun a b => newestLeB a b = true)) := by
        unfold sort_items
        rw [if_neg (by decide), if_pos rfl, if_neg hc]
      rw [e]
      constructor
      · intro h
        exact Option.noConfusion h
      · intro h
        exact absurd h hc
  · intro out hout
    by_cases hc : lst.any (fun x => yearIsPyNone x) = true
    · have e : sort_items lst "newest" = none := by
        unfold sort_items
        rw [if_neg (by decide), if_pos rfl, if_pos hc]
      rw [e] at hout
      exact Option.noConfusion hout
    · have e : sort_items lst "newest" =
          some (lst.insertionSort (fun a b => newestLeB a b = true)) := by
        unfold sort_items
        rw [if_neg (by decide), if_pos rfl, if_neg hc]
      rw [e] at hout
      obtain rfl := (Option.some.inj hout).symm
      refine ⟨List.perm_insertionSort _ lst,
        List.sorted_insertionSort (fun a b => newestLeB a b = true) lst, ?_⟩
      intro i j a b hij ha hb heq
      have hr := pairwise_of_sorted_at
        (List.sorted_insertionSort (fun a b => newestLeB a b = true) lst)
        i j a b hij ha hb
      exact optYearTitleLe_tie ((getYear 0 a).map (fun y => -y))
        ((getYear 0 b).map (fun y => -y)) (caseFoldKey a) (caseFoldKey b) hr
        (congrArg (Option.map (fun y => -y)) heq)
  · rw [e3]; rfl
  · intro out hout
    rw [e3] at hout
    obtain rfl := (Option.some.inj hout).symm
    exact ⟨List.perm_insertionSort _ lst,
      List.sorted_insertionSort (fun a b => titleLeB a b = true) lst⟩
  · rw [e4]; rfl
  · intro out hout
    rw [e4] at hout
    obtain rfl := (Option.some.inj hout).symm
    refine ⟨List.perm_insertionSort _ lst,
      List.sorted_insertionSort (fun a b => popDescLeB a b = true) lst, ?_⟩
    intro c
    refine insertionSort_filter_key _ popVal ?_ lst c
    intro x y hxy
    simp only [popDescLeB, decide_eq_true_eq] at hxy
    omega
  · rw [e5]; rfl
  · intro out hout
    rw [e5] at hout
    obtain rfl := (Option.some.inj hout).symm
    refine ⟨List.perm_insertionSort _ lst,
      List.sorted_insertionSort (fun a b => popAscLeB a b = true) lst, ?_⟩
    intro c
    refine insertionSort_filter_key _ popVal ?_ lst c
    intro x y hxy
    simp only [popAscLeB, decide_eq_true_eq] at hxy
    omega

/-- C5 witness: on a two-item list with equal int years, `oldest` completes
without `TypeError` and carries the titles in case-folded order. -/
theorem C5_sort_deterministic_total_order_witness :
    sort_items [⟨some "b", some (some 2000), none, none, none, none⟩,
        ⟨some "a", some (some 2000), none, none, none, none⟩] "oldest" =
      some [⟨some "a", some (some 2000), none, none, none, none⟩,
        ⟨some "b", some (some 2000), none, none, none, none⟩] ∧
    (0 : Nat) < 1 ∧
    ([⟨some "a", some (some 2000), none, none, none, none⟩,
        ⟨some "b", some (some 2000), none, none, none, none⟩] :
      List Item)[0]? = some ⟨some "a", some (some 2000), none, none, none, none⟩ ∧
    ([⟨some "a", some (some 2000), none, none, none, none⟩,
        ⟨some "b", some (some 2000), none, none, none, none⟩] :
      List Item)[1]? = some ⟨some "b", some (some 2000), none, none, none, none⟩ ∧
    getYear 9999 ⟨some "a", some (some 2000), none, none, none, none⟩ =
      getYear 9999 ⟨some "b", some (some 2000), none, none, none, none⟩ ∧
    lexNatLe (caseFoldKey ⟨some "a", some (some 2000), none, none, none, none⟩)
      (caseFoldKey ⟨some "b", some (some 2000), none, none, none, none⟩) = true :=
  ⟨by decide, by decide, by decide, by decide, by decide,
    ((C5_sort_deterministic_total_order
        [⟨some "b", some (some 2000), none, none, none, none⟩,
          ⟨some "a", some (some 2000), none, none, none, none⟩]).2.1.2
      [⟨some "a", some (some 2000), none, none, none, none⟩,
        ⟨some "b", some (some 2000), none, none, none, none⟩]
      (by decide)).2.2 0 1
      ⟨some "a", some (some 2000), none, none, none, none⟩
      ⟨some "b", some (some 2000), none, none, none, none⟩
      (by decide) (by decide) (by decide) (by decide)⟩

/-- C6 counterexample: mode `newest` does not place missing-year items
first.  The substituted default 0 turns into the sort key `-(0) = 0`, which
is the greatest key among items with positive years, so against an item
with year 2000 (key -2000) the missing-year item is placed last: the input
`[missing, 2000]` sorts to `[2000, missing]`, not `[missing, 2000]`. -/
theorem C6_newest_counterexample :
    (⟨some "a", none, none, none, none, none⟩ : Item).year = none ∧
    (⟨some "b", some (some 2000), none, none, none, none⟩ : Item).year =
      some (some 2000) ∧
    sort_items [⟨some "a", none, none, none, none, none⟩,
        ⟨some "b", some (some 2000), none, none, none, none⟩] "newest" =
      some [⟨some "b", some (some 2000), none, none, none, none⟩,
        ⟨some "a", none, none, none, none, none⟩] := by
  decide

/-- C6 (amended): only an absent `year` key is defaulted — to 9999 in mode
`oldest` and to 0 in mode `newest` (a key storing Python `None` instead
raises `TypeError`, reported as `sort_items = none`).  Whenever the sort
returns: in `oldest` output no item with a year below 9999 comes after a
missing-year item (missing years sort last); in `newest` output the
substituted 0 is negated into the greatest key among non-negative years, so
missing-year items are likewise placed last, after every positive-year item
— every item preceding a missing-year one has year ≥ 0 and every item
following one has year ≤ 0; in both modes items with equal retrieved year
key are ordered by case-folded title. -/
theorem C6_missing_year_defaults (lst : List Item) :
    (∀ out : List Item, sort_items lst "oldest" = some out →
      out.Perm lst ∧
      List.Sorted (fun a b => oldestLeB a b = true) out ∧
      (∀ (i j : Nat) (a b : Item) (yv : Int), i < j →
        out[i]? = some a → out[j]? = some b →
        a.year = none → b.year = some (some yv) → (9999 : Int) ≤ yv) ∧
      (∀ (i j : Nat) (a b : Item), i < j →
        out[i]? = some a → out[j]? = some b →
        getYear 9999 a = getYear 9999 b →
        lexNatLe (caseFoldKey a) (caseFoldKey b) = true)) ∧
    (∀ out : List Item, sort_items lst "newest" = some out →
      out.Perm lst ∧
      List.Sorted (fun a b => newestLeB a b = true) out ∧
      (∀ (i j : Nat) (a b : Item) (yv : Int), i < j →
        out[i]? = some a → out[j]? = some b →
        a.year = some (some yv) → b.year = none → (0 : Int) ≤ yv) ∧
      (∀ (i j : Nat) (a b : Item) (yv : Int), i < j →
        out[i]? = some a → out[j]? = some b →
        a.year = none → b.year = some (some yv) → yv ≤ (0 : Int)) ∧
      (∀ (i j : Nat) (a b : Item), i < j →
        out[i]? = some a → out[j]? = some b →
        getYear 0 a = getYear 0 b →
        lexNatLe (caseFoldKey a) (caseFoldKey b) = true)) := by
  haveI i1 : IsTotal Item (fun a b => oldestLeB a b = true) := ⟨oldestLeB_total⟩
  haveI i2 : IsTrans Item (fun a b => oldestLeB a b = true) :=
    ⟨fun a b c => oldestLeB_trans a b c⟩
  haveI i3 : IsTotal Item (fun a b => newestLeB a b = true) := ⟨newestLeB_total⟩
  haveI i4 : IsTrans Item (fun a b => newestLeB a b = true) :=
    ⟨fun a b c => newestLeB_trans a b c⟩
  constructor
  · intro out hout
    by_cases hc : (lst.any (fun x => yearIsPyNone x) &&
        lst.any (fun x => !yearIsPyNone x)) = true
    · have e : sort_items lst "oldest" = none := by
        unfold sort_items
        rw [if_pos rfl, if_pos hc]
      rw [e] at hout
      exact Option.noConfusion hout
    · have e : sort_items lst "oldest" =
          some (lst.insertionSort (fun a b => oldestLeB a b = true)) := by
        unfold sort_items
        rw [if_pos rfl, if_neg hc]
      rw [e] at hout
      obtain rfl := (Option.some.inj hout).symm
      have hs := List.sorted_insertionSort (fun a b => oldestLeB a b = true) lst
      refine ⟨List.perm_insertionSort _ lst, hs, ?_, ?_⟩
      · intro i j a b yv hij ha hb hay hby
        have hr := pairwise_of_sorted_at hs i j a b hij ha hb
        have hka : getYear 9999 a = some 9999 := by
          unfold getYear
          rw [hay]
        have hkb : getYear 9999 b = some yv := by
          unfold getYear
          rw [hby]
        exact optYearTitleLe_key_le (getYear 9999 a) (getYear 9999 b)
          (caseFoldKey a) (caseFoldKey b) 9999 yv hr hka hkb
      · intro i j a b hij ha hb heq
        have hr := pairwise_of_sorted_at hs i j a b hij ha hb
        exact optYearTitleLe_tie (getYear 9999 a) (getYear 9999 b)
          (caseFoldKey a) (caseFoldKey b) hr heq
  · intro out hout
    by_cases hc : lst.any (fun x => yearIsPyNone x) = true
    · have e : sort_items lst "newest" = none := by
        unfold sort_items
        rw [if_neg (by decide), if_pos rfl, if_pos hc]
      rw [e] at hout
      exact Option.noConfusion hout
    · have e : sort_items lst "newest" =
          some (lst.insertionSort (fun a b => newestLeB a b = true)) := by
        unfold sort_items
        rw [if_neg (by decide), if_pos rfl, if_neg hc]
      rw [e] at hout
      obtain rfl := (Option.some.inj hout).symm
      have hs := List.sorted_insertionSort (fun a b => newestLeB a b = true) lst
      refine ⟨List.perm_insertionSort _ lst, hs, ?_, ?_, ?_⟩
      · intro i j a b yv hij ha hb hay hby
        have hr := pairwise_of_sorted_at hs i j a b hij ha hb
        have hka : (getYear 0 a).map (fun y => -y) = some (-yv) := by
          unfold getYear
          rw [hay]
          rfl
        have hkb : (getYear 0 b).map (fun y => -y) = some 0 := by
          unfold getYear
          rw [hby]
          simp
        have hle := optYearTitleLe_key_le ((getYear 0 a).map (fun y => -y))
          ((getYear 0 b).map (fun y => -y)) (caseFoldKey a) (caseFoldKey b)
          (-yv) 0 hr hka hkb
        omega
      · intro i j a b yv hij ha hb hay hby
        have hr := pairwise_of_sorted_at hs i j a b hij ha hb
        have hka : (getYear 0 a).map (fun y => -y) = some 0 := by
          unfold getYear
          rw [hay]
          simp
        have hkb : (getYear 0 b).map (fun y => -y) = some (-yv) := by
          unfold getYear
          rw [hby]
          rfl
        have hle := optYearTitleLe_key_le ((getYear 0 a).map (fun y => -y))
          ((getYear 0 b).map (fun y => -y)) (caseFoldKey a) (caseFoldKey b)
          0 (-yv) hr hka hkb
        omega
      · intro i j a b hij ha hb heq
        have hr := pairwise_of_sorted_at hs i j a b hij ha hb
        exact optYearTitleLe_tie ((getYear 0 a).map (fun y => -y))
          ((getYear 0 b).map (fun y => -y)) (caseFoldKey a) (caseFoldKey b) hr
          (congrArg (Option.map (fun y => -y)) heq)

/-- C6 witness: with an item of int year 10000 and an absent-year item,
`oldest` completes and puts the absent-year item (substituted year 9999)
before it; the recorded year 10000 is indeed at least 9999. -/
theorem C6_missing_year_defaults_witness :
    sort_items [⟨some "x", some (some 10000), none, none, none, none⟩,
        ⟨some "y", none, none, none, none, none⟩] "oldest" =
      some [⟨some "y", none, none, none, none, none⟩,
        ⟨some "x", some (some 10000), none, none, none, none⟩] ∧
    (0 : Nat) < 1 ∧
    ([⟨some "y", none, none, none, none, none⟩,
        ⟨some "x", some (some 10000), none, none, none, none⟩] :
      List Item)[0]? = some ⟨some "y", none, none, none, none, none⟩ ∧
    ([⟨some "y", none, none, none, none, none⟩,
        ⟨some "x", some (some 10000), none, none, none, none⟩] :
      List Item)[1]? = some ⟨some "x", some (some 10000), none, none, none, none⟩ ∧
    (⟨some "y", none, none, none, none, none⟩ : Item).year = none ∧
    (⟨some "x", some (some 10000), none, none, none, none⟩ : Item).year =
      some (some 10000) ∧
    (9999 : Int) ≤ 10000 :=
  ⟨by decide, by decide, by decide, by decide, by decide, by decide,
    ((C6_missing_year_defaults
        [⟨some "x", some (some 10000), none, none, none, none⟩,
          ⟨some "y", none, none, none, none, none⟩]).1
      [⟨some "y", none, none, none, none, none⟩,
        ⟨some "x", some (some 10000), none, none, none, none⟩]
      (by decide)).2.2.1 0 1
      ⟨some "y", none, none, none, none, none⟩
      ⟨some "x", some (some 10000), none, none, none, none⟩ 10000
      (by decide) (by decide) (by decide) (by decide) (by decide)⟩

/-- C9: the run aborts with exit code 1 — before anything is dispatched —
exactly when the source adapter yielded nothing or an active year filter
removed every item; in every other case dispatch proceeds (on the filtered
list when a year bound was given, on the full list otherwise). -/
theorem C9_fatal_before_dispatch (items : List Item) (ymin ymax : Option Int) :
    (main_pipeline items ymin ymax = MainOutcome.fatal 1 ↔
      (items = [] ∨ ((ymin.isSome ∨ ymax.isSome) ∧
        items.filter (in_range ymin ymax) = []))) ∧
    ((ymin.isSome ∨ ymax.isSome) → items.filter (in_range ymin ymax) ≠ [] →
      main_pipeline items ymin ymax =
        MainOutcome.dispatch (items.filter (in_range ymin ymax))) ∧
    (ymin = none → ymax = none → items ≠ [] →
      main_pipeline items ymin ymax = MainOutcome.dispatch items) := by
  by_cases h0 : items = []
  · subst h0
    refine ⟨by simp [main_pipeline], ?_, ?_⟩
    · intro _ h2
      simp at h2
    · intro _ _ h3
      simp at h3
  · have h0' : items.isEmpty = false := by
      cases items with
      | nil => exact absurd rfl h0
      | cons a l => rfl
    by_cases h1 : ymin.isSome ∨ ymax.isSome
    · have h1' : (ymin.isSome || ymax.isSome) = true := by
        rcases h1 with h | h <;> simp [h]
      by_cases h2 : items.filter (in_range ymin ymax) = []
      · refine ⟨?_, ?_, ?_⟩
        · simp [main_pipeline, h0', h1', h2, h1]
        · intro _ hne
          exact absurd h2 hne
        · intro hmin hmax _
          rw [hmin, hmax] at h1
          simp at h1
      · refine ⟨?_, ?_, ?_⟩
        · simp [main_pipeline, h0', h1', h2, h0]
        · intro _ _
          simp [main_pipeline, h0', h1', h2]
        · intro hmin hmax _
          rw [hmin, hmax] at h1
          simp at h1
    · have h1' : (ymin.isSome || ymax.isSome) = false := by
        simp only [Bool.or_eq_false_iff]
        constructor <;> [skip; skip] <;> simp_all [Option.isSome]
      refine ⟨?_, ?_, ?_⟩
      · simp [main_pipeline, h0', h1', h0]
        intro h
        exact absurd h h1
      · intro h
        exact absurd h h1
      · intro _ _ _
        simp [main_pipeline, h0', h1']

/-- C9 witness: one surviving item dispatches; the year filter keeping
nothing is fatal with exit code 1. -/
theorem C9_fatal_before_dispatch_witness :
    ((some 1990 : Option Int).isSome ∨ (none : Option Int).isSome) ∧
    ([⟨some "a", some (some 2000), none, none, none, none⟩] : List Item).filter
      (in_range (some 1990) none) ≠ [] ∧
    main_pipeline [⟨some "a", some (some 2000), none, none, none, none⟩]
      (some 1990) none =
      MainOutcome.dispatch
        (([⟨some "a", some (some 2000), none, none, none, none⟩] : List Item).filter
          (in_range (some 1990) none)) :=
  ⟨by decide, by decide,
    (C9_fatal_before_dispatch [⟨some "a", some (some 2000), none, none, none, none⟩]
      (some 1990) none).2.1 (by decide) (by decide)⟩

/-- C10: over a non-empty series list in which no record carries a
`season_numbers` field (folder-derived items, for example), the season
dispatcher builds zero tasks and returns zero rows, and the whole
season-mode run completes without any fatal check firing, reporting the
empty row list. -/
theorem C10_no_seasons_empty_report (net : String → Nat → HttpResp)
    (pk : String) (items : List Item) (limit : Nat) (sched : List Nat)
    (h1 : items ≠ []) (h2 : ∀ it ∈ items, it.season_numbers = none) :
    seasonTasks items = [] ∧
    build_report_seasons net items pk limit 5 sched = [] ∧
    season_mode_run net items pk none none limit sched = RunResult.report [] := by
  have ht : seasonTasks items = [] := by
    clear h1
    unfold seasonTasks
    induction items with
    | nil => rfl
    | cons a l ih =>
      have ha : a.season_numbers = none := h2 a (by simp)
      have hl : ∀ it ∈ l, it.season_numbers = none := by
        intro it hit
        exact h2 it (by simp [hit])
      simp only [List.flatMap_cons, ha, Option.getD_none, List.map_nil,
        List.nil_append]
      exact ih hl
  have hb : build_report_seasons net items pk limit 5 sched = [] := by
    unfold build_report_seasons
    rw [ht]
    simp [applyPerm]
  have h0' : items.isEmpty = false := by
    cases items with
    | nil => exact absurd rfl h1
    | cons a l => rfl
  refine ⟨ht, hb, ?_⟩
  unfold season_mode_run
  have hm : main_pipeline items none none = MainOutcome.dispatch items := by
    simp [main_pipeline, h0']
  rw [hm]
  show RunResult.report (build_report_seasons net items pk limit 5 sched) =
    RunResult.report []
  rw [hb]

/-- C10 witness: a single folder-derived series record with no
`season_numbers` field yields a successful empty report. -/
theorem C10_no_seasons_empty_report_witness :
    season_mode_run (fun _ _ => HttpResp.exn)
      [⟨some "a", none, none, none, none, none⟩] "pk" none none 10 [] =
      RunResult.report [] :=
  (C10_no_seasons_empty_report (fun _ _ => HttpResp.exn) "pk"
    [⟨some "a", none, none, none, none, none⟩] 10 [] (by decide) (by decide)).2.2
